import Mathlib

/-!
Verification development for the `excel_summary` core: the header-detection
heuristic (`detect_header_row`), the tolerant numeric coercer
(`coerce_to_number`) and the column summarizer (`summarize_excel_columns`)
from `excel_summary/excel_utils.py`, plus the inline duplicate of the same
logic in `excel_summary/views.py` (namespace `Views`).

Modelling conventions:
- A worksheet is a `List (List Cell)` of already-decoded cell values
  (`ws.iter_rows(values_only=True)` order); `iter_rows(min_row=a, max_row=b)`
  over a grid is `take`/`drop` on that list.
- Python `float` values are modelled as exact rationals (`PyNum`, a fraction
  in lowest terms); the values exercised by the repository's decision logic
  (integers, two-decimal currency amounts and their halves) are exactly
  representable IEEE doubles, so the exact model agrees with Python on them.
- Python's built-in `float(str)` is modelled by `pyFloat` for finite decimal
  literals (optional sign, digits, decimal point, exponent) — the grammar the
  coercer's inputs exercise; `inf`/`nan`/underscore literals are outside the
  model.
- Python `round(x, 2)` rounds half-to-even on the decimal value; `pyRound2`
  does the same on `PyNum`.
- `str.replace` with a single-character pattern is character-wise
  (`replaceChar`); `str.strip` trims ASCII whitespace (`pyStrip`);
  `str.lower` lowercases ASCII letters (`strLower`).
- A raised `HeaderNotFoundError` is modelled as `Option.none`.
-/

/-- An exact rational number kept in lowest terms with a positive
denominator: the model of a Python `float` value. -/
structure PyNum where
  num : Int
  den : Nat
deriving DecidableEq

/-- Build a `PyNum` from a numerator and a (positive) denominator, reducing
to lowest terms. -/
def PyNum.make (n : Int) (d : Nat) : PyNum :=
  if d = 0 then ⟨0, 1⟩
  else
    let g := Nat.gcd n.natAbs d
    ⟨n / (g : Int), d / g⟩

instance (n : Nat) : OfNat PyNum n := ⟨⟨(n : Int), 1⟩⟩

instance : NatCast PyNum := ⟨fun n => ⟨(n : Int), 1⟩⟩

instance : IntCast PyNum := ⟨fun n => ⟨n, 1⟩⟩

/-- Decimal literals: `mantissa / 10 ^ exponent` (or times, for a positive
exponent). -/
instance : OfScientific PyNum :=
  ⟨fun m b e => if b then PyNum.make (m : Int) (10 ^ e) else ⟨(m : Int) * 10 ^ e, 1⟩⟩

def PyNum.add (a b : PyNum) : PyNum :=
  PyNum.make (a.num * (b.den : Int) + b.num * (a.den : Int)) (a.den * b.den)

def PyNum.sub (a b : PyNum) : PyNum :=
  PyNum.make (a.num * (b.den : Int) - b.num * (a.den : Int)) (a.den * b.den)

def PyNum.mul (a b : PyNum) : PyNum :=
  PyNum.make (a.num * b.num) (a.den * b.den)

/-- Division (the divisor is never zero on the paths the code takes). -/
def PyNum.div (a b : PyNum) : PyNum :=
  if b.num < 0 then PyNum.make (-(a.num * (b.den : Int))) (a.den * b.num.natAbs)
  else PyNum.make (a.num * (b.den : Int)) (a.den * b.num.natAbs)

def PyNum.neg (a : PyNum) : PyNum := ⟨-a.num, a.den⟩

instance : Add PyNum := ⟨PyNum.add⟩
instance : Sub PyNum := ⟨PyNum.sub⟩
instance : Mul PyNum := ⟨PyNum.mul⟩
instance : Div PyNum := ⟨PyNum.div⟩
instance : Neg PyNum := ⟨PyNum.neg⟩

/-- Strict comparison by cross-multiplication (denominators are positive). -/
def PyNum.blt (a b : PyNum) : Bool :=
  a.num * (b.den : Int) < b.num * (a.den : Int)

/-- `10 ^ e` as a `PyNum`. -/
def PyNum.pow10 (e : Nat) : PyNum := ⟨(10 : Int) ^ e, 1⟩

/-- Floor to an integer. -/
def PyNum.floor (q : PyNum) : Int := q.num.fdiv (q.den : Int)

/-- ASCII whitespace stripped by Python `str.strip()`. -/
def isPyWs (c : Char) : Bool :=
  c = ' ' || c = '\t' || c = '\n' || c = '\r' || c = '\x0b' || c = '\x0c'

/-- Python `str.strip()`: drop leading and trailing whitespace. -/
def pyStrip (s : String) : String :=
  String.mk (((s.data.dropWhile isPyWs).reverse.dropWhile isPyWs).reverse)

/-- ASCII lowercasing of one character (Python `str.lower` restricted to ASCII). -/
def lowerChar (c : Char) : Char :=
  if 'A' ≤ c && c ≤ 'Z' then Char.ofNat (c.toNat + 32) else c

/-- Python `str.lower()` (ASCII fragment). -/
def strLower (s : String) : String :=
  String.mk (s.data.map lowerChar)

/-- Python `str.replace(pattern, repl)` for a single-character pattern:
single-character needles cannot overlap, so the left-to-right scan is a
character-wise substitution. -/
def replaceChar (s : String) (c : Char) (r : String) : String :=
  String.mk (s.data.foldr (fun a acc => if a = c then r.data ++ acc else a :: acc) [])

/-- A decoded worksheet cell value as handed over by `openpyxl`
(`values_only=True`): `None`, a string, an `int`, a `float`, or a `bool`. -/
inductive Cell where
  | none
  | str (s : String)
  | int (n : Int)
  | float (q : PyNum)
  | bool (b : Bool)
deriving DecidableEq

/-- Python `cell in (None, "")`: the emptiness test used by
`detect_header_row` (only `None` and the empty string compare equal to a
member of that tuple). -/
def cellBlank : Cell → Bool
  | Cell.none => true
  | Cell.str s => s == ""
  | _ => false

/-- `not any(cell not in (None, "") for cell in row)`: a row is "completely
empty" when every cell is `None` or `""` (vacuously true for a row with no
cells). -/
def rowIsEmpty (row : List Cell) : Bool :=
  !(row.any fun c => !cellBlank c)

/-- Count of the factors `p` in `n` (fuel-bounded division loop). -/
def factorCountAux (p : Nat) : Nat → Nat → Nat
  | 0, _ => 0
  | fuel + 1, n => if n % p == 0 && p ≤ n then factorCountAux p fuel (n / p) + 1 else 0

/-- Count of the factors `p` in `n`. -/
def factorCount (p n : Nat) : Nat := factorCountAux p n n

/-- Left-pad a digit string with zeros to width `k`. -/
def padLeftZeros (s : String) (k : Nat) : String :=
  String.mk (List.replicate (k - s.length) '0' ++ s.data)

/-- Python `str()` of a float value. Python prints the shortest decimal that
round-trips; for dyadic rationals (the values IEEE doubles can hold) that is
the exact finite decimal expansion produced here, with integral values
printed with a trailing `.0` as Python does. (Only reachable from
`normalize_header` on a float-valued header cell; no claim exercises it.) -/
def floatRepr (q : PyNum) : String :=
  let a := factorCount 2 q.den
  let b := factorCount 5 q.den
  let k := max a b
  if q.den = 2 ^ a * 5 ^ b then
    if k = 0 then toString q.num ++ ".0"
    else
      let scaled := q.num.natAbs * (10 ^ k / q.den)
      (if q.num < 0 then "-" else "")
        ++ toString (scaled / 10 ^ k) ++ "."
        ++ padLeftZeros (toString (scaled % 10 ^ k)) k
  else toString q.num ++ "/" ++ toString q.den

/-- Python `str(value)` for the cell-value types. -/
def pyStr : Cell → String
  | Cell.none => "None"
  | Cell.str s => s
  | Cell.int n => toString n
  | Cell.float q => floatRepr q
  | Cell.bool b => if b then "True" else "False"

/-- `normalize_header` from `excel_utils.py`: `""` for `None`, otherwise
`str(header).strip().lower()`. -/
def normalize_header (header : Cell) : String :=
  match header with
  | Cell.none => ""
  | h => strLower (pyStrip (pyStr h))

/-- `[normalize_header(c) for c in requested_columns]` (the requested labels
are strings). -/
def normReq (cols : List String) : List String :=
  cols.map fun c => normalize_header (Cell.str c)

/-- Insert into a Python `dict` modelled as an association list in insertion
order: overwriting an existing key keeps its position and updates the value;
a new key is appended. -/
def dictInsert (d : List (String × Nat)) (k : String) (v : Nat) : List (String × Nat) :=
  if d.any fun p => p.1 == k then
    d.map fun p => if p.1 == k then (k, v) else p
  else d ++ [(k, v)]

/-- Python `d[k]` / `k in d` on the dict model. -/
def dictLookup (d : List (String × Nat)) (k : String) : Option Nat :=
  (d.find? fun p => p.1 == k).map (·.2)

/-- Python `list(d.keys())`: keys in insertion order. -/
def dictKeys (d : List (String × Nat)) : List String :=
  d.map (·.1)

/-- The header-map construction loop / dict comprehension
`{normalize_header(cell): col_idx for col_idx, cell in enumerate(row) if normalize_header(cell)}`:
cells that normalize to `""` are dropped; a duplicate normalized key keeps
its first position but takes the later column index. -/
def hmAux (row : List Cell) (i : Nat) (d : List (String × Nat)) : List (String × Nat) :=
  match row with
  | [] => d
  | c :: rest =>
      hmAux rest (i + 1)
        (if normalize_header c = "" then d else dictInsert d (normalize_header c) i)

/-- Normalized-header → column-index map of one row. -/
def headerMapOfRow (row : List Cell) : List (String × Nat) :=
  hmAux row 0 []

/-- `sum(1 for c in requested_norm if c in header_map)`: requested labels are
counted per list entry (duplicates in the requested list count each time). -/
def matchCount (reqNorm : List String) (d : List (String × Nat)) : Nat :=
  (reqNorm.filter fun c => (dictLookup d c).isSome).length

/-- Match count of one row against the normalized requested labels. -/
def rowScore (reqNorm : List String) (row : List Cell) : Nat :=
  matchCount reqNorm (headerMapOfRow row)

/-- The best-match loop of `detect_header_row`: skip completely empty rows,
and replace the running best only on a strictly greater match count. -/
def phase1 (reqNorm : List String) :
    List (List Cell) → Nat → Option (Nat × List Cell) → Nat → Option (Nat × List Cell) × Nat
  | [], _, best, bc => (best, bc)
  | row :: rest, idx, best, bc =>
      if rowIsEmpty row then
        phase1 reqNorm rest (idx + 1) best bc
      else if bc < rowScore reqNorm row then
        phase1 reqNorm rest (idx + 1) (some (idx, row)) (rowScore reqNorm row)
      else
        phase1 reqNorm rest (idx + 1) best bc

/-- The fallback loop of `detect_header_row`: first row with any non-empty cell. -/
def firstNonEmpty : List (List Cell) → Nat → Option (Nat × List Cell)
  | [], _ => Option.none
  | row :: rest, idx =>
      if rowIsEmpty row then firstNonEmpty rest (idx + 1) else some (idx, row)

/-- Greatest row score over a list of rows. -/
def maxScore (reqNorm : List String) : List (List Cell) → Nat
  | [] => 0
  | row :: rest => max (rowScore reqNorm row) (maxScore reqNorm rest)

/-- `detect_header_row(ws, requested_columns, max_header_search)` from
`excel_utils.py`: best-match scan over the first `max_header_search` rows
(1-indexed), then fallback to the first non-empty row, else `(None, None)`. -/
def detect_header_row (grid : List (List Cell)) (requested_columns : List String)
    (max_header_search : Nat) : Option (Nat × List Cell) :=
  let reqNorm := normReq requested_columns
  let rows := grid.take max_header_search
  let res := phase1 reqNorm rows 1 Option.none 0
  if 0 < res.2 then
    match res.1 with
    | some b => some b
    | Option.none => firstNonEmpty rows 1
  else firstNonEmpty rows 1

/-- Unsigned decimal digit string to `Nat`. -/
def digitsToNat (cs : List Char) : Nat :=
  cs.foldl (fun n c => n * 10 + (c.toNat - 48)) 0

/-- Optional leading sign of a Python float literal. -/
def parseSignChars : List Char → Bool × List Char
  | '-' :: r => (true, r)
  | '+' :: r => (false, r)
  | cs => (false, cs)

/-- Mantissa of a Python float literal: `digits`, `digits.`, `digits.digits`
or `.digits`. -/
def parseMantissa (cs : List Char) : Option PyNum :=
  let ip := cs.takeWhile (· ≠ '.')
  let rest := cs.dropWhile (· ≠ '.')
  match rest with
  | [] =>
      if ip ≠ [] && ip.all Char.isDigit then some ((digitsToNat ip : PyNum))
      else Option.none
  | _ :: fp =>
      if (ip ++ fp) ≠ [] && (ip ++ fp).all Char.isDigit then
        some ((digitsToNat (ip ++ fp) : PyNum) / PyNum.pow10 fp.length)
      else Option.none

/-- Python built-in `float(s)` on finite decimal literals: optional
surrounding whitespace, optional sign, mantissa, optional `e`/`E` exponent.
`ValueError` is `Option.none`. -/
def pyFloat (s : String) : Option PyNum :=
  let cs := (pyStrip s).data
  let sgn := parseSignChars cs
  let mant := sgn.2.takeWhile fun c => c ≠ 'e' && c ≠ 'E'
  let rest := sgn.2.dropWhile fun c => c ≠ 'e' && c ≠ 'E'
  match parseMantissa mant, rest with
  | some v, [] => some (if sgn.1 then -v else v)
  | some v, _ :: ecs =>
      let esgn := parseSignChars ecs
      if esgn.2 ≠ [] && esgn.2.all Char.isDigit then
        let e := digitsToNat esgn.2
        some (if esgn.1 then (if sgn.1 then -v else v) / PyNum.pow10 e
              else (if sgn.1 then -v else v) * PyNum.pow10 e)
      else Option.none
  | Option.none, _ => Option.none

/-- The currency/space stripping step of `coerce_to_number`: remove every
`$`, `€`, `£` and space, in that order. -/
def stripSymbols (s : String) : String :=
  replaceChar (replaceChar (replaceChar (replaceChar s '$' "") '€' "") '£' "") ' ' ""

/-- `coerce_to_number(value)` from `excel_utils.py`. `bool` is a subclass of
`int` in Python, so boolean cells take the `isinstance(value, (int, float))`
branch and coerce to `1.0` / `0.0`. -/
def coerce_to_number (value : Cell) : Option PyNum :=
  match value with
  | Cell.none => Option.none
  | Cell.int n => some ((n : PyNum))
  | Cell.float q => some q
  | Cell.bool b => some (if b then 1 else 0)
  | Cell.str v =>
      let s := pyStrip v
      if s = "" then Option.none
      else
        let s1 := stripSymbols s
        let s2 :=
          if s1.data.contains ',' && s1.data.contains '.' then replaceChar s1 ',' ""
          else if s1.data.contains ',' && !s1.data.contains '.' then replaceChar s1 ',' "."
          else s1
        pyFloat s2

/-- Round a `PyNum` to the nearest integer, ties to even (the rounding of
Python's built-in `round`). -/
def roundHalfEven (q : PyNum) : Int :=
  let f := PyNum.floor q
  let r := q - (f : PyNum)
  if r.blt ⟨1, 2⟩ then f
  else if PyNum.blt ⟨1, 2⟩ r then f + 1
  else if f % 2 = 0 then f else f + 1

/-- Python `round(x, 2)`: correctly-rounded (half-to-even) to two decimal
places. -/
def pyRound2 (q : PyNum) : PyNum :=
  ((roundHalfEven (q * 100) : PyNum)) / 100

/-- One entry of the `summaries` list: `{"column": ..., "sum": ..., "avg": ...}`. -/
structure ColumnSummary where
  column : String
  sum : PyNum
  avg : PyNum
deriving DecidableEq

/-- The data-row accumulation loop of `summarize_excel_columns` for one
target column index: rows shorter than the index are skipped
(`if col_idx >= len(row): continue`), uncoercible cells are skipped. -/
def columnAccum (rows : List (List Cell)) (i : Nat) (total : PyNum) (count : Nat) :
    PyNum × Nat :=
  match rows with
  | [] => (total, count)
  | row :: rest =>
      if row.length ≤ i then columnAccum rest i total count
      else
        match coerce_to_number (row.getD i Cell.none) with
        | Option.none => columnAccum rest i total count
        | some n => columnAccum rest i (total + n) (count + 1)

/-- Emit one `ColumnSummary`: rounded sum and average when any cell coerced,
otherwise the `sum = 0.0, avg = 0.0` policy branch. -/
def summarizeColumn (dataRows : List (List Cell)) (col_name : String) (i : Nat) :
    ColumnSummary :=
  let acc := columnAccum dataRows i 0 0
  if 0 < acc.2 then
    ⟨col_name, pyRound2 acc.1, pyRound2 (acc.1 / (acc.2 : PyNum))⟩
  else ⟨col_name, 0, 0⟩

/-- Processing of one requested column in the main loop: `Option.none` means
the column is missing from the header map (appended to `missing_columns`,
no summary emitted). -/
def processColumn (dataRows : List (List Cell)) (hm : List (String × Nat))
    (col_name : String) : Option ColumnSummary :=
  match dictLookup hm (normalize_header (Cell.str col_name)) with
  | Option.none => Option.none
  | some i => some (summarizeColumn dataRows col_name i)

/-- The result triple of `summarize_excel_columns`. -/
structure SummaryResult where
  summaries : List ColumnSummary
  missing_columns : List String
  available_columns : List String
deriving DecidableEq

/-- `summarize_excel_columns(ws, columns)` from `excel_utils.py`;
`Option.none` models the raised `HeaderNotFoundError`. -/
def summarize_excel_columns (grid : List (List Cell)) (columns : List String) :
    Option SummaryResult :=
  match detect_header_row grid columns 5 with
  | Option.none => Option.none
  | some hdr =>
      let hm := headerMapOfRow hdr.2
      let dataRows := grid.drop hdr.1
      some
        { summaries := columns.filterMap (processColumn dataRows hm)
          missing_columns :=
            columns.filter fun c => (dictLookup hm (normalize_header (Cell.str c))).isNone
          available_columns := dictKeys hm }

namespace Views

/-- `normalize_header` as duplicated in `views.py`. -/
def normalize_header (header : Cell) : String :=
  match header with
  | Cell.none => ""
  | h => strLower (pyStrip (pyStr h))

/-- `coerce_to_number` as duplicated in `views.py`. -/
def coerce_to_number (value : Cell) : Option PyNum :=
  match value with
  | Cell.none => Option.none
  | Cell.int n => some ((n : PyNum))
  | Cell.float q => some q
  | Cell.bool b => some (if b then 1 else 0)
  | Cell.str v =>
      let s := pyStrip v
      if s = "" then Option.none
      else
        let s1 := stripSymbols s
        let s2 :=
          if s1.data.contains ',' && s1.data.contains '.' then replaceChar s1 ',' ""
          else if s1.data.contains ',' && !s1.data.contains '.' then replaceChar s1 ',' "."
          else s1
        pyFloat s2

/-- The header-map construction of the `views.py` copy. -/
def hmAux (row : List Cell) (i : Nat) (d : List (String × Nat)) : List (String × Nat) :=
  match row with
  | [] => d
  | c :: rest =>
      hmAux rest (i + 1)
        (if normalize_header c = "" then d else dictInsert d (normalize_header c) i)

/-- Normalized-header → column-index map of one row (`views.py` copy). -/
def headerMapOfRow (row : List Cell) : List (String × Nat) :=
  hmAux row 0 []

/-- Row match count of the `views.py` copy. -/
def rowScore (reqNorm : List String) (row : List Cell) : Nat :=
  matchCount reqNorm (headerMapOfRow row)

/-- Best-match loop of the `views.py` copy of `detect_header_row`. -/
def phase1 (reqNorm : List String) :
    List (List Cell) → Nat → Option (Nat × List Cell) → Nat → Option (Nat × List Cell) × Nat
  | [], _, best, bc => (best, bc)
  | row :: rest, idx, best, bc =>
      if rowIsEmpty row then
        phase1 reqNorm rest (idx + 1) best bc
      else if bc < rowScore reqNorm row then
        phase1 reqNorm rest (idx + 1) (some (idx, row)) (rowScore reqNorm row)
      else
        phase1 reqNorm rest (idx + 1) best bc

/-- Fallback loop of the `views.py` copy of `detect_header_row`. -/
def firstNonEmpty : List (List Cell) → Nat → Option (Nat × List Cell)
  | [], _ => Option.none
  | row :: rest, idx =>
      if rowIsEmpty row then firstNonEmpty rest (idx + 1) else some (idx, row)

/-- `detect_header_row` as duplicated in `views.py`. -/
def detect_header_row (grid : List (List Cell)) (requested_columns : List String)
    (max_header_search : Nat) : Option (Nat × List Cell) :=
  let reqNorm := requested_columns.map fun c => normalize_header (Cell.str c)
  let rows := grid.take max_header_search
  let res := phase1 reqNorm rows 1 Option.none 0
  if 0 < res.2 then
    match res.1 with
    | some b => some b
    | Option.none => firstNonEmpty rows 1
  else firstNonEmpty rows 1

/-- Data-row accumulation loop of the view's inline per-column computation. -/
def columnAccum (rows : List (List Cell)) (i : Nat) (total : PyNum) (count : Nat) :
    PyNum × Nat :=
  match rows with
  | [] => (total, count)
  | row :: rest =>
      if row.length ≤ i then columnAccum rest i total count
      else
        match coerce_to_number (row.getD i Cell.none) with
        | Option.none => columnAccum rest i total count
        | some n => columnAccum rest i (total + n) (count + 1)

/-- Per-column summary emission of the view's inline loop. -/
def summarizeColumn (dataRows : List (List Cell)) (col_name : String) (i : Nat) :
    ColumnSummary :=
  let acc := columnAccum dataRows i 0 0
  if 0 < acc.2 then
    ⟨col_name, pyRound2 acc.1, pyRound2 (acc.1 / (acc.2 : PyNum))⟩
  else ⟨col_name, 0, 0⟩

/-- Processing of one requested column in the view's inline loop. -/
def processColumn (dataRows : List (List Cell)) (hm : List (String × Nat))
    (col_name : String) : Option ColumnSummary :=
  match dictLookup hm (normalize_header (Cell.str col_name)) with
  | Option.none => Option.none
  | some i => some (summarizeColumn dataRows col_name i)

/-- Lines 174–241 of `views.py` (`ExcelSummaryView.post` after workbook
decoding): detect the header row (a failed detection is the 400 response,
modelled `Option.none`), rebuild the header map, and run the inline
per-column loop producing `requested_summaries` and `missing_columns`. -/
def computeSummaries (grid : List (List Cell)) (columns : List String) :
    Option (List ColumnSummary × List String) :=
  match detect_header_row grid columns 5 with
  | Option.none => Option.none
  | some hdr =>
      let hm := headerMapOfRow hdr.2
      let dataRows := grid.drop hdr.1
      some
        (columns.filterMap (processColumn dataRows hm),
         columns.filter fun c => (dictLookup hm (normalize_header (Cell.str c))).isNone)

end Views

/-- The grid of the end-to-end scenario: header row plus three data rows. -/
def scenarioGrid : List (List Cell) :=
  [[Cell.str "Name", Cell.str "CURRENT USD", Cell.str "CURRENT CAD"],
   [Cell.str "A", Cell.str "100", Cell.str "50"],
   [Cell.str "B", Cell.str "$200.50", Cell.str "abc"],
   [Cell.str "C", Cell.str "", Cell.str "75,25"]]

/-- The requested columns of the end-to-end scenario. -/
def scenarioCols : List String := ["CURRENT USD", "CURRENT CAD", "MISSING"]

/-- Number of DISTINCT normalized requested labels present in a row's header
map (the selection criterion as the claim words it; the code instead counts
per requested-list entry, see `matchCount`). -/
def distinctMatchCount (req : List String) (row : List Cell) : Nat :=
  (((normReq req).dedup).filter fun c => (dictLookup (headerMapOfRow row) c).isSome).length

/-- A cell holding a non-empty string made only of whitespace characters. -/
def isWsOnlyStr : Cell → Bool
  | Cell.str s => !(s == "") && s.data.all isPyWs
  | _ => false

lemma normalize_header_of_blank {c : Cell} (h : cellBlank c = true) :
    normalize_header c = "" := by
  cases c with
  | none => rfl
  | str s =>
      have hs : s = "" := by simpa [cellBlank] using h
      subst hs; rfl
  | int n => simp [cellBlank] at h
  | float q => simp [cellBlank] at h
  | bool b => simp [cellBlank] at h

lemma rowIsEmpty_iff {row : List Cell} :
    rowIsEmpty row = true ↔ ∀ c ∈ row, cellBlank c = true := by
  simp [rowIsEmpty, List.any_eq_true]

lemma hmAux_of_blank {row : List Cell} (h : ∀ c ∈ row, normalize_header c = "") :
    ∀ i d, hmAux row i d = d := by
  induction row with
  | nil => intro i d; rfl
  | cons c rest ih =>
      intro i d
      have hc : normalize_header c = "" := h c (List.mem_cons_self c rest)
      have hrest : ∀ x ∈ rest, normalize_header x = "" :=
        fun x hx => h x (List.mem_cons_of_mem c hx)
      simp [hmAux, hc, ih hrest]

lemma headerMapOfRow_of_empty {row : List Cell} (h : rowIsEmpty row = true) :
    headerMapOfRow row = [] := by
  refine hmAux_of_blank ?_ 0 []
  intro c hc
  exact normalize_header_of_blank (rowIsEmpty_iff.mp h c hc)

lemma rowScore_of_empty (reqNorm : List String) {row : List Cell}
    (h : rowIsEmpty row = true) : rowScore reqNorm row = 0 := by
  simp [rowScore, matchCount, headerMapOfRow_of_empty h, dictLookup]

lemma phase1_snd (reqNorm : List String) :
    ∀ (rows : List (List Cell)) (idx : Nat) (best : Option (Nat × List Cell)) (bc : Nat),
      (phase1 reqNorm rows idx best bc).2 = max bc (maxScore reqNorm rows) := by
  intro rows
  induction rows with
  | nil => intro idx best bc; simp [phase1, maxScore]
  | cons row rest ih =>
      intro idx best bc
      by_cases he : rowIsEmpty row
      · have h0 : rowScore reqNorm row = 0 := rowScore_of_empty reqNorm he
        simp [phase1, maxScore, he, ih, h0]
      · by_cases hlt : bc < rowScore reqNorm row
        · simp [phase1, maxScore, he, hlt, ih]
          omega
        · simp [phase1, maxScore, he, hlt, ih]
          omega

lemma phase1_fst_le (reqNorm : List String) :
    ∀ (rows : List (List Cell)) (idx : Nat) (best : Option (Nat × List Cell)) (bc : Nat),
      maxScore reqNorm rows ≤ bc → (phase1 reqNorm rows idx best bc).1 = best := by
  intro rows
  induction rows with
  | nil => intro idx best bc _; rfl
  | cons row rest ih =>
      intro idx best bc h
      simp only [maxScore] at h
      have hrow : rowScore reqNorm row ≤ bc := le_trans (le_max_left _ _) h
      have hrest : maxScore reqNorm rest ≤ bc := le_trans (le_max_right _ _) h
      by_cases he : rowIsEmpty row
      · simp only [phase1, if_pos he]; exact ih _ _ _ hrest
      · have hlt : ¬ bc < rowScore reqNorm row := by omega
        simp only [phase1, if_neg he, if_neg hlt]
        exact ih _ _ _ hrest

lemma phase1_fst_gt (reqNorm : List String) :
    ∀ (rows : List (List Cell)) (idx : Nat) (best : Option (Nat × List Cell)) (bc : Nat),
      bc < maxScore reqNorm rows →
      ∃ j, j < rows.length ∧
        (phase1 reqNorm rows idx best bc).1 = some (idx + j, rows.getD j []) ∧
        rowScore reqNorm (rows.getD j []) = maxScore reqNorm rows ∧
        ∀ k < j, rowScore reqNorm (rows.getD k []) < maxScore reqNorm rows := by
  intro rows
  induction rows with
  | nil => intro idx best bc h; simp [maxScore] at h
  | cons row rest ih =>
      intro idx best bc h
      simp only [maxScore] at h
      by_cases he : rowIsEmpty row
      · have h0 : rowScore reqNorm row = 0 := rowScore_of_empty reqNorm he
        have hM : max (rowScore reqNorm row) (maxScore reqNorm rest) = maxScore reqNorm rest := by
          omega
        have hrest : bc < maxScore reqNorm rest := by omega
        obtain ⟨j, hj, heq, hsc, hsmall⟩ := ih (idx + 1) best bc hrest
        refine ⟨j + 1, by simp; omega, ?_, ?_, ?_⟩
        · simp only [phase1, if_pos he]
          rw [heq]
          have harith : idx + 1 + j = idx + (j + 1) := by omega
          simp [harith, List.getD]
        · simp only [maxScore, hM]
          simpa [List.getD] using hsc
        · intro k hk
          simp only [maxScore, hM]
          match k with
          | 0 => simp [List.getD, h0]; omega
          | Nat.succ k' =>
              have hk' : k' < j := by omega
              simpa [List.getD] using hsmall k' hk'
      · by_cases hlt : bc < rowScore reqNorm row
        · by_cases h2 : maxScore reqNorm rest ≤ rowScore reqNorm row
          · have hM : max (rowScore reqNorm row) (maxScore reqNorm rest) =
                rowScore reqNorm row := by omega
            refine ⟨0, by simp, ?_, ?_, ?_⟩
            · simp only [phase1, if_neg he, if_pos hlt]
              rw [phase1_fst_le reqNorm rest _ _ _ h2]
              simp [List.getD]
            · simp [maxScore, hM, List.getD]
            · intro k hk; omega
          · have hM : max (rowScore reqNorm row) (maxScore reqNorm rest) =
                maxScore reqNorm rest := by omega
            have hrest : rowScore reqNorm row < maxScore reqNorm rest := by omega
            obtain ⟨j, hj, heq, hsc, hsmall⟩ := ih (idx + 1) (some (idx, row)) _ hrest
            refine ⟨j + 1, by simp; omega, ?_, ?_, ?_⟩
            · simp only [phase1, if_neg he, if_pos hlt]
              rw [heq]
              have harith : idx + 1 + j = idx + (j + 1) := by omega
              simp [harith, List.getD]
            · simp only [maxScore, hM]
              simpa [List.getD] using hsc
            · intro k hk
              simp only [maxScore, hM]
              match k with
              | 0 => simpa [List.getD] using hrest
              | Nat.succ k' =>
                  have hk' : k' < j := by omega
                  simpa [List.getD] using hsmall k' hk'
        · have hrow_le : rowScore reqNorm row ≤ bc := by omega
          have hM : max (rowScore reqNorm row) (maxScore reqNorm rest) =
              maxScore reqNorm rest := by omega
          have hrest : bc < maxScore reqNorm rest := by omega
          obtain ⟨j, hj, heq, hsc, hsmall⟩ := ih (idx + 1) best bc hrest
          refine ⟨j + 1, by simp; omega, ?_, ?_, ?_⟩
          · simp only [phase1, if_neg he, if_neg hlt]
            rw [heq]
            have harith : idx + 1 + j = idx + (j + 1) := by omega
            simp [harith, List.getD]
          · simp only [maxScore, hM]
            simpa [List.getD] using hsc
          · intro k hk
            simp only [maxScore, hM]
            match k with
            | 0 => simp [List.getD]; omega
            | Nat.succ k' =>
                have hk' : k' < j := by omega
                simpa [List.getD] using hsmall k' hk'

lemma firstNonEmpty_eq_none_iff :
    ∀ (rows : List (List Cell)) (idx : Nat),
      firstNonEmpty rows idx = Option.none ↔ ∀ r ∈ rows, rowIsEmpty r = true := by
  intro rows
  induction rows with
  | nil => intro idx; simp [firstNonEmpty]
  | cons row rest ih =>
      intro idx
      by_cases he : rowIsEmpty row
      · simp [firstNonEmpty, he, ih]
      · simp [firstNonEmpty, he]

lemma firstNonEmpty_spec :
    ∀ (rows : List (List Cell)) (idx : Nat),
      (∃ r ∈ rows, rowIsEmpty r = false) →
      ∃ j, j < rows.length ∧
        firstNonEmpty rows idx = some (idx + j, rows.getD j []) ∧
        rowIsEmpty (rows.getD j []) = false ∧
        ∀ k < j, rowIsEmpty (rows.getD k []) = true := by
  intro rows
  induction rows with
  | nil => intro idx h; simp at h
  | cons row rest ih =>
      intro idx h
      by_cases he : rowIsEmpty row
      · have hrest : ∃ r ∈ rest, rowIsEmpty r = false := by
          rcases h with ⟨r, hr, hfalse⟩
          rcases List.mem_cons.mp hr with rfl | hmem
          · rw [he] at hfalse; cases hfalse
          · exact ⟨r, hmem, hfalse⟩
        obtain ⟨j, hj, heq, hne, hall⟩ := ih (idx + 1) hrest
        refine ⟨j + 1, by simp; omega, ?_, ?_, ?_⟩
        · simp only [firstNonEmpty, if_pos he]
          rw [heq]
          have harith : idx + 1 + j = idx + (j + 1) := by omega
          simp [harith, List.getD]
        · simpa [List.getD] using hne
        · intro k hk
          match k with
          | 0 => simpa [List.getD] using he
          | Nat.succ k' =>
              have hk' : k' < j := by omega
              simpa [List.getD] using hall k' hk'
      · refine ⟨0, by simp, ?_, ?_, ?_⟩
        · simp [firstNonEmpty, he, List.getD]
        · simpa [List.getD] using eq_false_of_ne_true he
        · intro k hk; omega

lemma maxScore_eq_zero {reqNorm : List String} {rows : List (List Cell)}
    (h : ∀ r ∈ rows, rowScore reqNorm r = 0) : maxScore reqNorm rows = 0 := by
  induction rows with
  | nil => rfl
  | cons row rest ih =>
      have h0 : rowScore reqNorm row = 0 := h row (List.mem_cons_self row rest)
      have hrest := ih fun r hr => h r (List.mem_cons_of_mem row hr)
      simp [maxScore, h0, hrest]

lemma maxScore_pos_of_mem {reqNorm : List String} {rows : List (List Cell)}
    {r : List Cell} (hr : r ∈ rows) (h : 0 < rowScore reqNorm r) :
    0 < maxScore reqNorm rows := by
  induction rows with
  | nil => cases hr
  | cons row rest ih =>
      rcases List.mem_cons.mp hr with rfl | hmem
      · simp only [maxScore]; omega
      · have := ih hmem
        simp only [maxScore]; omega

/-- When some row in the window attains a positive best score,
`detect_header_row` returns the earliest row attaining the maximum score. -/
lemma detect_of_maxScore_pos (grid : List (List Cell)) (req : List String) (d : Nat)
    (h : 0 < maxScore (normReq req) (grid.take d)) :
    ∃ j, j < (grid.take d).length ∧
      detect_header_row grid req d = some (j + 1, (grid.take d).getD j []) ∧
      rowScore (normReq req) ((grid.take d).getD j []) =
        maxScore (normReq req) (grid.take d) ∧
      ∀ k < j, rowScore (normReq req) ((grid.take d).getD k []) <
        maxScore (normReq req) (grid.take d) := by
  obtain ⟨j, hj, heq, hsc, hsmall⟩ :=
    phase1_fst_gt (normReq req) (grid.take d) 1 Option.none 0 h
  have hbc : (phase1 (normReq req) (grid.take d) 1 Option.none 0).2 =
      maxScore (normReq req) (grid.take d) := by
    rw [phase1_snd]; omega
  refine ⟨j, hj, ?_, hsc, hsmall⟩
  unfold detect_header_row
  simp only [hbc, if_pos h, heq]
  have harith : 1 + j = j + 1 := by omega
  rw [harith]

/-- When no row in the window matches any requested label,
`detect_header_row` falls back to the first non-empty row. -/
lemma detect_of_no_match (grid : List (List Cell)) (req : List String) (d : Nat)
    (h0 : ∀ r ∈ grid.take d, rowScore (normReq req) r = 0) :
    detect_header_row grid req d = firstNonEmpty (grid.take d) 1 := by
  have hms : maxScore (normReq req) (grid.take d) = 0 := maxScore_eq_zero h0
  have hbc : (phase1 (normReq req) (grid.take d) 1 Option.none 0).2 = 0 := by
    rw [phase1_snd, hms]; omega
  unfold detect_header_row
  simp [hbc]

lemma getD_mem_of_lt {l : List (List Cell)} {j : Nat} (hj : j < l.length) :
    l.getD j [] ∈ l := by
  induction l generalizing j with
  | nil => simp at hj
  | cons a rest ih =>
      match j with
      | 0 => simp [List.getD]
      | Nat.succ k =>
          have hk : k < rest.length := by simpa using hj
          exact List.mem_cons_of_mem _ (by simpa [List.getD] using ih hk)

lemma detect_eq_none_iff (grid : List (List Cell)) (req : List String) (d : Nat) :
    detect_header_row grid req d = Option.none ↔
      ∀ r ∈ grid.take d, rowIsEmpty r = true := by
  by_cases hbc : 0 < (phase1 (normReq req) (grid.take d) 1 Option.none 0).2
  · have hms : 0 < maxScore (normReq req) (grid.take d) := by
      have := phase1_snd (normReq req) (grid.take d) 1 Option.none 0
      omega
    obtain ⟨j, hj, heq, hsc, _⟩ := detect_of_maxScore_pos grid req d hms
    rw [heq]
    constructor
    · intro h; cases h
    · intro hall
      exfalso
      have hmem : (grid.take d).getD j [] ∈ grid.take d := getD_mem_of_lt hj
      have hempty : rowIsEmpty ((grid.take d).getD j []) = true := hall _ hmem
      have h0 : rowScore (normReq req) ((grid.take d).getD j []) = 0 :=
        rowScore_of_empty _ hempty
      omega
  · have hdet : detect_header_row grid req d = firstNonEmpty (grid.take d) 1 := by
      unfold detect_header_row; simp [hbc]
    rw [hdet, firstNonEmpty_eq_none_iff]

lemma summarize_eq_none_iff (grid : List (List Cell)) (cols : List String) :
    summarize_excel_columns grid cols = Option.none ↔
      detect_header_row grid cols 5 = Option.none := by
  unfold summarize_excel_columns
  cases detect_header_row grid cols 5 <;> simp

lemma foldr_del_eq_filter (c : Char) (l : List Char) :
    l.foldr (fun a acc => if a = c then acc else a :: acc) [] =
      l.filter fun a => a ≠ c := by
  induction l with
  | nil => rfl
  | cons a rest ih => by_cases ha : a = c <;> simp [ha, ih, List.filter_cons]

lemma foldr_subst_eq_map (c d : Char) (l : List Char) :
    l.foldr (fun a acc => if a = c then d :: acc else a :: acc) [] =
      l.map fun a => if a = c then d else a := by
  induction l with
  | nil => rfl
  | cons a rest ih => by_cases ha : a = c <;> simp [ha, ih]

lemma replaceChar_comma_del (s : String) :
    replaceChar s ',' "" = String.mk (s.data.filter fun a => a ≠ ',') := by
  have hd : ("" : String).data = [] := rfl
  unfold replaceChar
  simp only [hd, List.nil_append]
  rw [foldr_del_eq_filter]

lemma replaceChar_comma_dot (s : String) :
    replaceChar s ',' "." = String.mk (s.data.map fun a => if a = ',' then '.' else a) := by
  have hd : ("." : String).data = ['.'] := rfl
  unfold replaceChar
  simp only [hd, List.cons_append, List.nil_append]
  rw [foldr_subst_eq_map]

lemma isWsOnlyStr_not_blank {c : Cell} (h : isWsOnlyStr c = true) :
    cellBlank c = false := by
  cases c <;> simp_all [isWsOnlyStr, cellBlank]

lemma isWsOnlyStr_normalizes_blank {c : Cell} (h : isWsOnlyStr c = true) :
    normalize_header c = "" := by
  cases c with
  | str s =>
      have hws : ∀ x ∈ s.data, isPyWs x = true := by
        simp only [isWsOnlyStr, Bool.and_eq_true, List.all_eq_true] at h
        exact h.2
      have hdrop : s.data.dropWhile isPyWs = [] :=
        List.dropWhile_eq_nil_iff.mpr fun x hx => hws x hx
      have hstrip : pyStrip s = "" := by
        simp [pyStrip, hdrop]
      simp [normalize_header, pyStr, hstrip, strLower]
  | none => rfl
  | int n => simp [isWsOnlyStr] at h
  | float q => simp [isWsOnlyStr] at h
  | bool b => simp [isWsOnlyStr] at h

lemma views_normalize_eq : Views.normalize_header = normalize_header := by
  funext c; cases c <;> rfl

lemma views_coerce_eq : Views.coerce_to_number = coerce_to_number := by
  funext c; cases c <;> rfl

lemma views_hmAux_eq : Views.hmAux = hmAux := by
  funext row i d
  induction row generalizing i d with
  | nil => rfl
  | cons c rest ih => simp [Views.hmAux, hmAux, views_normalize_eq, ih]

lemma views_headerMap_eq : Views.headerMapOfRow = headerMapOfRow := by
  funext row
  simp [Views.headerMapOfRow, headerMapOfRow, views_hmAux_eq]

lemma views_rowScore_eq : Views.rowScore = rowScore := by
  funext reqNorm row
  simp [Views.rowScore, rowScore, views_headerMap_eq]

lemma views_phase1_eq : Views.phase1 = phase1 := by
  funext reqNorm rows idx best bc
  induction rows generalizing idx best bc with
  | nil => rfl
  | cons row rest ih => simp [Views.phase1, phase1, views_rowScore_eq, ih]

lemma views_firstNonEmpty_eq : Views.firstNonEmpty = firstNonEmpty := by
  funext rows idx
  induction rows generalizing idx with
  | nil => rfl
  | cons row rest ih => simp [Views.firstNonEmpty, firstNonEmpty, ih]

lemma views_detect_eq : Views.detect_header_row = detect_header_row := by
  funext grid req d
  simp [Views.detect_header_row, detect_header_row, normReq, views_normalize_eq,
    views_phase1_eq, views_firstNonEmpty_eq]

lemma views_columnAccum_eq : Views.columnAccum = columnAccum := by
  funext rows i total count
  induction rows generalizing total count with
  | nil => rfl
  | cons row rest ih =>
      simp only [Views.columnAccum, columnAccum, views_coerce_eq, ih]

lemma views_summarizeColumn_eq : Views.summarizeColumn = summarizeColumn := by
  funext dataRows col_name i
  simp [Views.summarizeColumn, summarizeColumn, views_columnAccum_eq]

lemma views_processColumn_eq : Views.processColumn = processColumn := by
  funext dataRows hm col_name
  simp [Views.processColumn, processColumn, views_normalize_eq, views_summarizeColumn_eq]

/-- C1 counterexample: on the end-to-end scenario grid the code produces
`avg = 62.62` for `CURRENT CAD` (Python's `round` is half-to-even and
`62.625` is an exact tie), not the claimed `62.63`. -/
theorem c1_counterexample :
    summarize_excel_columns scenarioGrid scenarioCols =
      some
        { summaries :=
            [⟨"CURRENT USD", (300.50 : PyNum), (150.25 : PyNum)⟩,
             ⟨"CURRENT CAD", (125.25 : PyNum), (62.62 : PyNum)⟩]
          missing_columns := ["MISSING"]
          available_columns := ["name", "current usd", "current cad"] } ∧
    ((62.62 : PyNum)) ≠ ((62.63 : PyNum)) := by
  constructor
  · decide
  · decide

/-- C1 (amended): the end-to-end scenario yields the two summaries in
request order with sums `300.50`, `125.25` and averages `150.25`, `62.62`
(the CAD average `62.625` rounds half-to-even to `62.62`), missing columns
`["MISSING"]` and available columns `["name","current usd","current cad"]`. -/
theorem c1_theorem :
    summarize_excel_columns scenarioGrid scenarioCols =
      some
        { summaries :=
            [⟨"CURRENT USD", (300.50 : PyNum), (150.25 : PyNum)⟩,
             ⟨"CURRENT CAD", (125.25 : PyNum), (62.62 : PyNum)⟩]
          missing_columns := ["MISSING"]
          available_columns := ["name", "current usd", "current cad"] } := by
  decide

/-- C2: after trimming and stripping currency symbols and spaces, a string
with both `,` and `.` has every `,` removed before float parsing, and a
string with `,` but no `.` has every `,` replaced by `.`; moreover the seven
enumerated coercions hold (`""`, `None` are not-a-number; `7` maps to `7.0`). -/
theorem c2_theorem :
    (∀ s : String,
        (stripSymbols (pyStrip s)).data.contains ',' = true →
        (stripSymbols (pyStrip s)).data.contains '.' = true →
        coerce_to_number (Cell.str s) =
          pyFloat (String.mk ((stripSymbols (pyStrip s)).data.filter fun a => a ≠ ','))) ∧
    (∀ s : String,
        (stripSymbols (pyStrip s)).data.contains ',' = true →
        (stripSymbols (pyStrip s)).data.contains '.' = false →
        coerce_to_number (Cell.str s) =
          pyFloat (String.mk
            ((stripSymbols (pyStrip s)).data.map fun a => if a = ',' then '.' else a))) ∧
    coerce_to_number (Cell.str "$1,234.56") = some ((1234.56 : PyNum)) ∧
    coerce_to_number (Cell.str "90,00") = some ((90 : PyNum)) ∧
    coerce_to_number (Cell.str "  42 ") = some ((42 : PyNum)) ∧
    coerce_to_number (Cell.str "1,234") = some ((1.234 : PyNum)) ∧
    coerce_to_number (Cell.str "") = Option.none ∧
    coerce_to_number Cell.none = Option.none ∧
    coerce_to_number (Cell.int 7) = some ((7 : PyNum)) := by
  refine ⟨?_, ?_, by decide, by decide, by decide, by decide, by decide, by decide, by decide⟩
  · intro s hc hd
    by_cases hs : pyStrip s = ""
    · rw [hs] at hc
      exact absurd hc (by decide)
    · simp only [coerce_to_number]
      rw [if_neg hs]
      simp only [hc, hd, Bool.and_self, if_true]
      rw [replaceChar_comma_del]
  · intro s hc hd
    by_cases hs : pyStrip s = ""
    · rw [hs] at hc
      exact absurd hc (by decide)
    · simp only [coerce_to_number]
      rw [if_neg hs]
      simp only [hc, hd, Bool.and_false, Bool.and_true, Bool.not_false, if_false, if_true]
      rw [replaceChar_comma_dot]
      simp

/-- C2 witness: the comma-handling branches of `c2_theorem` instantiated at
`"$1,234.56"` (both separators) and `"90,00"` (comma only). -/
theorem c2_witness :
    coerce_to_number (Cell.str "$1,234.56") =
      pyFloat (String.mk ((stripSymbols (pyStrip "$1,234.56")).data.filter fun a => a ≠ ',')) ∧
    coerce_to_number (Cell.str "90,00") =
      pyFloat (String.mk
        ((stripSymbols (pyStrip "90,00")).data.map fun a => if a = ',' then '.' else a)) :=
  ⟨c2_theorem.1 "$1,234.56" (by decide) (by decide),
   c2_theorem.2.1 "90,00" (by decide) (by decide)⟩

/-- C3 counterexample: with requested list `["x","x","y"]` (whose distinct
normalized labels are `x` and `y`) both rows of the grid contain exactly one
distinct requested label, so the claim's tie-break would return the earliest
row 1; the code counts per requested-list entry (row 2 scores 2 via the
duplicated `"x"`) and returns row 2. -/
theorem c3_counterexample :
    detect_header_row [[Cell.str "y"], [Cell.str "x"]] ["x", "x", "y"] 5 =
      some (2, [Cell.str "x"]) ∧
    distinctMatchCount ["x", "x", "y"] [Cell.str "y"] = 1 ∧
    distinctMatchCount ["x", "x", "y"] [Cell.str "x"] = 1 ∧
    rowIsEmpty [Cell.str "y"] = false ∧
    rowIsEmpty [Cell.str "x"] = false := by
  decide

/-- C3 (amended): when some row in the window scores positively, the header
locator returns the earliest row whose match count — counted per
requested-list entry, duplicates included, not per distinct label — attains
the maximum: the returned row attains the maximum score and every earlier
row scores strictly less. -/
theorem c3_theorem (grid : List (List Cell)) (req : List String) (d : Nat)
    (h : 0 < maxScore (normReq req) (grid.take d)) :
    ∃ j, j < (grid.take d).length ∧
      detect_header_row grid req d = some (j + 1, (grid.take d).getD j []) ∧
      rowScore (normReq req) ((grid.take d).getD j []) =
        maxScore (normReq req) (grid.take d) ∧
      ∀ k < j, rowScore (normReq req) ((grid.take d).getD k []) <
        maxScore (normReq req) (grid.take d) :=
  detect_of_maxScore_pos grid req d h

/-- C3 witness: `c3_theorem` applied to a concrete grid whose second row
matches the single requested column. -/
theorem c3_witness :
    ∃ j, j < (([[Cell.str "a"], [Cell.str "x"]] : List (List Cell)).take 5).length ∧
      detect_header_row [[Cell.str "a"], [Cell.str "x"]] ["x"] 5 =
        some (j + 1, (([[Cell.str "a"], [Cell.str "x"]] : List (List Cell)).take 5).getD j []) ∧
      rowScore (normReq ["x"])
          ((([[Cell.str "a"], [Cell.str "x"]] : List (List Cell)).take 5).getD j []) =
        maxScore (normReq ["x"]) (([[Cell.str "a"], [Cell.str "x"]] : List (List Cell)).take 5) ∧
      ∀ k < j, rowScore (normReq ["x"])
          ((([[Cell.str "a"], [Cell.str "x"]] : List (List Cell)).take 5).getD k []) <
        maxScore (normReq ["x"]) (([[Cell.str "a"], [Cell.str "x"]] : List (List Cell)).take 5) :=
  c3_theorem [[Cell.str "a"], [Cell.str "x"]] ["x"] 5 (by decide)

/-- C4: when no row in the search window matches any requested label (all
row scores are zero, including for an empty requested list), the header
locator returns the first row having at least one cell outside
`{null, ""}`, with its 1-based index and raw values. -/
theorem c4_theorem (grid : List (List Cell)) (req : List String) (d : Nat)
    (h0 : ∀ r ∈ grid.take d, rowScore (normReq req) r = 0)
    (h1 : ∃ r ∈ grid.take d, rowIsEmpty r = false) :
    ∃ j, j < (grid.take d).length ∧
      detect_header_row grid req d = some (j + 1, (grid.take d).getD j []) ∧
      rowIsEmpty ((grid.take d).getD j []) = false ∧
      ∀ k < j, rowIsEmpty ((grid.take d).getD k []) = true := by
  rw [detect_of_no_match grid req d h0]
  obtain ⟨j, hj, heq, hne, hall⟩ := firstNonEmpty_spec (grid.take d) 1 h1
  have harith : 1 + j = j + 1 := Nat.add_comm 1 j
  rw [harith] at heq
  exact ⟨j, hj, heq, hne, hall⟩

/-- C4 witness: `c4_theorem` applied to a one-row grid that matches no
requested column but is non-empty. -/
theorem c4_witness :
    ∃ j, j < (([[Cell.str "a"]] : List (List Cell)).take 5).length ∧
      detect_header_row [[Cell.str "a"]] ["x"] 5 =
        some (j + 1, (([[Cell.str "a"]] : List (List Cell)).take 5).getD j []) ∧
      rowIsEmpty ((([[Cell.str "a"]] : List (List Cell)).take 5).getD j []) = false ∧
      ∀ k < j, rowIsEmpty ((([[Cell.str "a"]] : List (List Cell)).take 5).getD k []) = true :=
  c4_theorem [[Cell.str "a"]] ["x"] 5 (by decide) (by decide)

/-- C5: the header locator reports not-found exactly when every cell of
every row in the search window is `null` or `""`, and `summarize` raises
`HeaderNotFound` (returns `Option.none`) exactly in that case (with its
window of 5 rows), returning a result on every other input. -/
theorem c5_theorem (grid : List (List Cell)) (req : List String) (d : Nat) :
    (detect_header_row grid req d = Option.none ↔
       ∀ r ∈ grid.take d, rowIsEmpty r = true) ∧
    (summarize_excel_columns grid req = Option.none ↔
       ∀ r ∈ grid.take 5, rowIsEmpty r = true) := by
  refine ⟨detect_eq_none_iff grid req d, ?_⟩
  rw [summarize_eq_none_iff]
  exact detect_eq_none_iff grid req 5

/-- C6: a requested column found in the header map whose data cells below
the header contain zero coercible values yields a summary entry with
`sum = 0.0` and `avg = 0.0` (emitted, not reported missing). -/
theorem c6_theorem (grid : List (List Cell)) (cols : List String) (col : String)
    (hIdx : Nat) (hVals : List Cell) (i : Nat)
    (hdet : detect_header_row grid cols 5 = some (hIdx, hVals))
    (hmem : col ∈ cols)
    (hlook : dictLookup (headerMapOfRow hVals) (normalize_header (Cell.str col)) = some i)
    (hcount : (columnAccum (grid.drop hIdx) i 0 0).2 = 0) :
    ∃ res, summarize_excel_columns grid cols = some res ∧
      (⟨col, 0, 0⟩ : ColumnSummary) ∈ res.summaries ∧
      col ∉ res.missing_columns := by
  have hsum : summarize_excel_columns grid cols =
      some
        { summaries := cols.filterMap (processColumn (grid.drop hIdx) (headerMapOfRow hVals))
          missing_columns := cols.filter fun c =>
            (dictLookup (headerMapOfRow hVals) (normalize_header (Cell.str c))).isNone
          available_columns := dictKeys (headerMapOfRow hVals) } := by
    unfold summarize_excel_columns
    rw [hdet]
  have hpc : processColumn (grid.drop hIdx) (headerMapOfRow hVals) col =
      some ⟨col, 0, 0⟩ := by
    unfold processColumn
    rw [hlook]
    unfold summarizeColumn
    simp [hcount]
  refine ⟨_, hsum, ?_, ?_⟩
  · exact List.mem_filterMap.mpr ⟨col, hmem, hpc⟩
  · intro hbad
    rcases List.mem_filter.mp hbad with ⟨_, hcond⟩
    rw [hlook] at hcond
    simp at hcond

/-- C6 witness: `c6_theorem` on a grid whose header row is `["a"]` and whose
single data cell `"x"` does not coerce. -/
theorem c6_witness :
    ∃ res, summarize_excel_columns [[Cell.str "a"], [Cell.str "x"]] ["a"] = some res ∧
      (⟨"a", 0, 0⟩ : ColumnSummary) ∈ res.summaries ∧
      "a" ∉ res.missing_columns :=
  c6_theorem [[Cell.str "a"], [Cell.str "x"]] ["a"] "a" 1 [Cell.str "a"] 0
    (by decide) (by decide) (by decide) (by decide)

/-- C7: a non-empty row whose cells are all whitespace-only non-empty
strings is not skipped as completely empty (emptiness tests the raw cell
against `{null, ""}`), yet contributes no key to the per-row header map
(normalization trims such cells to blank and drops them). -/
theorem c7_theorem (row : List Cell) (h1 : row ≠ [])
    (h2 : row.all isWsOnlyStr = true) :
    rowIsEmpty row = false ∧ headerMapOfRow row = [] := by
  have hall : ∀ c ∈ row, isWsOnlyStr c = true := List.all_eq_true.mp h2
  constructor
  · match row, h1 with
    | c :: rest, _ =>
        have hc := isWsOnlyStr_not_blank (hall c (List.mem_cons_self c rest))
        simp [rowIsEmpty, hc]
  · exact hmAux_of_blank (fun c hc => isWsOnlyStr_normalizes_blank (hall c hc)) 0 []

/-- C7 witness: `c7_theorem` on the row `[" "]`. -/
theorem c7_witness :
    rowIsEmpty [Cell.str " "] = false ∧ headerMapOfRow [Cell.str " "] = [] :=
  c7_theorem [Cell.str " "] (by decide) (by decide)

/-- C8: data rows whose length is at most the target column index are
skipped for that column — dropping them from the row list changes neither
the accumulated total/count nor the emitted summary (and the total functions
`columnAccum`/`summarizeColumn` never index out of bounds). -/
theorem c8_theorem :
    (∀ (rows : List (List Cell)) (i : Nat) (total : PyNum) (count : Nat),
        columnAccum rows i total count =
          columnAccum (rows.filter fun r => decide (i < r.length)) i total count) ∧
    (∀ (dataRows : List (List Cell)) (col_name : String) (i : Nat),
        summarizeColumn dataRows col_name i =
          summarizeColumn (dataRows.filter fun r => decide (i < r.length)) col_name i) := by
  have hacc : ∀ (rows : List (List Cell)) (i : Nat) (total : PyNum) (count : Nat),
      columnAccum rows i total count =
        columnAccum (rows.filter fun r => decide (i < r.length)) i total count := by
    intro rows
    induction rows with
    | nil => intro i total count; rfl
    | cons row rest ih =>
        intro i total count
        by_cases hlen : row.length ≤ i
        · have hi : ¬ i < row.length := by omega
          simp only [columnAccum, if_pos hlen, List.filter_cons, hi, decide_False,
            Bool.false_eq_true, if_false]
          exact ih i total count
        · have hi : i < row.length := by omega
          have hfilter : (row :: rest).filter (fun r => decide (i < r.length)) =
              row :: rest.filter fun r => decide (i < r.length) := by
            simp [List.filter_cons, hi]
          rw [hfilter]
          simp only [columnAccum, if_neg hlen]
          cases hc : coerce_to_number (row.getD i Cell.none) with
          | none => simp only [hc]; exact ih i total count
          | some n => simp only [hc]; exact ih i (total + n) (count + 1)
  refine ⟨hacc, ?_⟩
  intro dataRows col_name i
  unfold summarizeColumn
  rw [hacc dataRows i 0 0]

/-- C9: Python's `bool` is a subclass of `int`, so the coercer treats
boolean cells as numeric — `True` coerces to `1.0`, `False` to `0.0` — and
boolean cells below a summarized column are counted and added to the sum. -/
theorem c9_theorem :
    coerce_to_number (Cell.bool true) = some ((1 : PyNum)) ∧
    coerce_to_number (Cell.bool false) = some ((0 : PyNum)) ∧
    columnAccum [[Cell.bool true], [Cell.bool false]] 0 0 0 = ((1 : PyNum), 2) := by
  decide

/-- C10: on every grid and requested-column list, the inline summarization
logic duplicated in the HTTP view (`Views.computeSummaries`) produces
exactly the summaries and missing-columns lists of
`summarize_excel_columns`, and raises exactly when it does. -/
theorem c10_theorem (grid : List (List Cell)) (cols : List String) :
    Views.computeSummaries grid cols =
      Option.map (fun r => (r.summaries, r.missing_columns))
        (summarize_excel_columns grid cols) := by
  unfold Views.computeSummaries summarize_excel_columns
  rw [views_detect_eq]
  cases detect_header_row grid cols 5 with
  | none => rfl
  | some hdr =>
      simp [views_headerMap_eq, views_processColumn_eq, views_normalize_eq]
